import Mathlib

/-!
Shallow embedding of the OHscheduler backend core (Rust sources under
`src/backend/src/`): the calendar arithmetic, occurrence generation and
materialization of `recurrence.rs`, the host-eligibility logic of `auth.rs`,
and the assign/unassign operations of `coverage.rs`, together with theorems
settling the frozen claims about them.

All `u64` nanosecond timestamps, `u32` day counts and `i32` years of the
source are modelled as `Nat`: every quantity involved is non-negative in the
source (years start at 1970, instants at the epoch), and no claim depends on
`u64` wrap-around, which is unreachable for the nanosecond timestamps in the
program's domain.  Principals and 16-byte ids are modelled as opaque `Nat`s.
Stateful storage (`storage.rs`, thread-local `BTreeMap`s) is modelled as an
explicit `State` record threaded through the operations.
-/

namespace OHS

/-- Principal (opaque caller/user identity, `candid::Principal` in the source). -/
abbrev Principal := Nat

/-- A 16-byte identifier `[u8; 16]`, modelled opaquely. -/
abbrev Uuid := Nat

-- ===========================================================================
-- Enums (types.rs)
-- ===========================================================================

/-- Role of a user (`types.rs`). -/
inductive Role
  | Admin
  | User
deriving DecidableEq, Repr

/-- Activation status of a user (`types.rs`). -/
inductive UserStatus
  | Active
  | Disabled
deriving DecidableEq, Repr

/-- Recurrence frequency (`types.rs`). -/
inductive Frequency
  | Weekly
  | Biweekly
  | Monthly
deriving DecidableEq, Repr

/-- Anchor weekday, `Mon = 0` through `Sun = 6` (`types.rs`). -/
inductive Weekday
  | Mon
  | Tue
  | Wed
  | Thu
  | Fri
  | Sat
  | Sun
deriving DecidableEq, Repr

/-- Numeric value of a weekday, as fixed by the discriminants in `types.rs`. -/
def Weekday.toNat : Weekday → Nat
  | .Mon => 0
  | .Tue => 1
  | .Wed => 2
  | .Thu => 3
  | .Fri => 4
  | .Sat => 5
  | .Sun => 6

/-- Ordinal of a weekday inside a month, `First = 1` .. `Last = 5` (`types.rs`). -/
inductive WeekdayOrdinal
  | First
  | Second
  | Third
  | Fourth
  | Last
deriving DecidableEq, Repr

/-- Numeric value of an ordinal, as fixed by the discriminants in `types.rs`. -/
def WeekdayOrdinal.toNat : WeekdayOrdinal → Nat
  | .First => 1
  | .Second => 2
  | .Third => 3
  | .Fourth => 4
  | .Last => 5

/-- Status of an event instance (`types.rs`). -/
inductive EventStatus
  | Active
  | Cancelled
deriving DecidableEq, Repr

-- ===========================================================================
-- Structs (types.rs)
-- ===========================================================================

/-- An out-of-office block of a user (`types.rs`). -/
structure OOOBlock where
  start_utc : Nat
  end_utc : Nat
deriving DecidableEq, Repr

/-- A user record (`types.rs`).  The `notification_settings` field of the
source is omitted: it is never consulted by any of the modelled operations. -/
structure User where
  principal : Principal
  name : String
  email : String
  role : Role
  status : UserStatus
  out_of_office : List OOOBlock
  last_active : Nat
  sessions_hosted_count : Nat
  created_at : Nat
  updated_at : Nat
deriving DecidableEq, Repr

/-- A recurrence rule / series (`types.rs`). -/
structure EventSeries where
  series_id : Uuid
  title : String
  notes : String
  link : Option String
  frequency : Frequency
  weekday : Weekday
  weekday_ordinal : Option WeekdayOrdinal
  start_date : Nat
  end_date : Option Nat
  default_duration_minutes : Nat
  color : Option String
  paused : Bool
  created_at : Nat
  created_by : Principal
deriving DecidableEq, Repr

/-- An event instance: either a stored one-off (`series_id = none`) or a
materialized occurrence of a series (`types.rs`). -/
structure EventInstance where
  instance_id : Uuid
  series_id : Option Uuid
  start_utc : Nat
  end_utc : Nat
  title : String
  notes : String
  link : Option String
  host_principal : Option Principal
  status : EventStatus
  color : Option String
  created_at : Nat
deriving DecidableEq, Repr

/-- Key of an instance override: (series id, original occurrence start) (`types.rs`). -/
structure OverrideKey where
  series_id : Uuid
  occurrence_start_utc : Nat
deriving DecidableEq, Repr

/-- A sparse per-occurrence exception record (`types.rs`). -/
structure InstanceOverride where
  series_id : Uuid
  occurrence_start_utc : Nat
  start_utc : Option Nat
  end_utc : Option Nat
  notes : Option String
  host_principal : Option Principal
  host_cleared : Bool
  cancelled : Bool
  updated_at : Nat
  updated_by : Principal
deriving DecidableEq, Repr

/-- Global settings (`types.rs`); organization display fields omitted, they are
never consulted by the modelled operations. -/
structure GlobalSettings where
  forward_window_months : Nat
  claims_paused : Bool
  default_event_duration_minutes : Nat
deriving DecidableEq, Repr

/-- Error taxonomy of the API (`types.rs`). -/
inductive ApiError
  | Unauthorized
  | NotFound
  | InvalidInput (msg : String)
  | Conflict (msg : String)
  | InternalError (msg : String)
deriving DecidableEq, Repr

/-- Result type of the API (`types.rs`). -/
abbrev ApiResult (α : Type) := Except ApiError α

-- ===========================================================================
-- Calendar arithmetic (recurrence.rs)
-- ===========================================================================

/-- Convert nanoseconds to days since epoch (`recurrence.rs::nanos_to_days`). -/
def nanos_to_days (nanos : Nat) : Nat :=
  nanos / 1000000000 / 86400

/-- Convert days since epoch to nanoseconds at start of day (`recurrence.rs::days_to_nanos`). -/
def days_to_nanos (days : Nat) : Nat :=
  days * 86400 * 1000000000

/-- Gregorian leap-year rule (`recurrence.rs::is_leap_year`). -/
def is_leap_year (year : Nat) : Bool :=
  (year % 4 == 0 && year % 100 != 0) || (year % 400 == 0)

/-- Number of days of a month; 0 for an out-of-range month number
(`recurrence.rs::days_in_month`). -/
def days_in_month (year month : Nat) : Nat :=
  if month = 1 ∨ month = 3 ∨ month = 5 ∨ month = 7 ∨ month = 8 ∨ month = 10 ∨ month = 12 then 31
  else if month = 4 ∨ month = 6 ∨ month = 9 ∨ month = 11 then 30
  else if month = 2 then (if is_leap_year year then 29 else 28)
  else 0

/-- Number of days of a year, inlined as `if is_leap_year(y) { 366 } else { 365 }`
at both of its use sites in `recurrence.rs` (`nanos_to_ymd`, `ymd_to_nanos`). -/
def days_in_year (year : Nat) : Nat :=
  if is_leap_year year then 366 else 365

theorem days_in_year_pos (year : Nat) : 365 ≤ days_in_year year := by
  unfold days_in_year
  split <;> omega

/-- Year loop of `recurrence.rs::nanos_to_ymd`: starting from year `y` (1970 on
entry) subtract whole years from the remaining day count until fewer days than
one year remain; returns the final year and the remaining days. -/
def yearSplit (y remaining : Nat) : Nat × Nat :=
  if remaining < days_in_year y then (y, remaining)
  else yearSplit (y + 1) (remaining - days_in_year y)
termination_by remaining
decreasing_by
  have := days_in_year_pos y
  omega

/-- Month loop of `recurrence.rs::nanos_to_ymd`: starting from month 1 subtract
whole months until fewer days than one month remain.  The source loop has no
explicit bound on the month; it always exits with month at most 12 because on
entry `remaining` is less than the number of days of year `year`.  The
`month > 12` early exit below makes the model total and is unreachable from
`nanos_to_ymd`. -/
def monthSplit (year month remaining : Nat) : Nat × Nat :=
  if 12 < month then (month, remaining)
  else if remaining < days_in_month year month then (month, remaining)
  else monthSplit year (month + 1) (remaining - days_in_month year month)
termination_by 13 - month

/-- Get (year, month, day) from a nanosecond timestamp (`recurrence.rs::nanos_to_ymd`). -/
def nanos_to_ymd (nanos : Nat) : Nat × Nat × Nat :=
  let days := nanos_to_days nanos
  let yr := yearSplit 1970 days
  let mr := monthSplit yr.1 1 yr.2
  (yr.1, mr.1, mr.2 + 1)

/-- Convert (year, month, day) to a nanosecond timestamp at start of day
(`recurrence.rs::ymd_to_nanos`). -/
def ymd_to_nanos (year month day : Nat) : Nat :=
  let days1 := (List.range' 1970 (year - 1970)).foldl
    (fun acc y => acc + days_in_year y) 0
  let days2 := (List.range' 1 (month - 1)).foldl
    (fun acc m => acc + days_in_month year m) days1
  days_to_nanos (days2 + (day - 1))

/-- Day of week, 0 = Monday .. 6 = Sunday, from a nanosecond timestamp;
1970-01-01 was a Thursday (`recurrence.rs::weekday_from_nanos`).  The source
computes `((days + 3) % 7 + 7) as u32 % 7` on a non-negative `i64`; on `Nat`
the extra `+ 7 ... % 7` round-trip is kept verbatim. -/
def weekday_from_nanos (nanos : Nat) : Nat :=
  ((nanos_to_days nanos + 3) % 7 + 7) % 7

/-- Find the nth occurrence of a weekday in a month
(`recurrence.rs::nth_weekday_of_month`). -/
def nth_weekday_of_month (year month : Nat) (weekday : Weekday)
    (ordinal : WeekdayOrdinal) : Option Nat :=
  let target_wd := weekday.toNat
  match ordinal with
  | .First | .Second | .Third | .Fourth =>
    let n := ordinal.toNat
    let first_of_month := ymd_to_nanos year month 1
    let first_wd := weekday_from_nanos first_of_month
    let days_until := (target_wd + 7 - first_wd) % 7
    let target_day := 1 + days_until + (n - 1) * 7
    if target_day ≤ days_in_month year month then
      some (ymd_to_nanos year month target_day)
    else
      none
  | .Last =>
    let last_day := days_in_month year month
    let last_of_month := ymd_to_nanos year month last_day
    let last_wd := weekday_from_nanos last_of_month
    let days_back := (last_wd + 7 - target_wd) % 7
    let target_day := last_day - days_back
    some (ymd_to_nanos year month target_day)

-- ===========================================================================
-- Occurrence generation (recurrence.rs)
-- ===========================================================================

/-- Step width of the weekly/biweekly loop, computed inside
`recurrence.rs::generate_occurrences` as
`interval_days * 86400 * 1_000_000_000` with `interval_days = 14` for
`Biweekly` and `7` otherwise. -/
def interval_nanos (frequency : Frequency) : Nat :=
  (if frequency = Frequency.Biweekly then 14 else 7) * 86400 * 1000000000

theorem interval_nanos_pos (frequency : Frequency) : 0 < interval_nanos frequency := by
  cases frequency <;> simp [interval_nanos]

/-- Weekly/biweekly collection loop of `recurrence.rs::generate_occurrences`:
`while occ < effective_end { if occ >= series.start_date { push(occ) }; occ += interval }`. -/
def weeklyOccs (frequency : Frequency) (occ effective_end start_date : Nat) : List Nat :=
  if occ < effective_end then
    (if start_date ≤ occ then [occ] else []) ++
      weeklyOccs frequency (occ + interval_nanos frequency) effective_end start_date
  else []
termination_by effective_end - occ
decreasing_by
  have := interval_nanos_pos frequency
  omega

/-- Monthly collection loop of `recurrence.rs::generate_occurrences`: walk the
calendar months from (`year`, `month`) up to (`end_year`, `end_month`)
inclusive, keeping the nth anchor weekday of each month when it exists and
falls inside `[effective_start, effective_end)`. -/
def monthlyOccs (weekday : Weekday) (ordinal : WeekdayOrdinal)
    (effective_start effective_end year month end_year end_month : Nat) : List Nat :=
  if year < end_year ∨ (year = end_year ∧ month ≤ end_month) then
    (match nth_weekday_of_month year month weekday ordinal with
      | some occ =>
        if effective_start ≤ occ ∧ occ < effective_end then [occ] else []
      | none => []) ++
    (if 12 < month + 1 then
      monthlyOccs weekday ordinal effective_start effective_end (year + 1) 1 end_year end_month
    else
      monthlyOccs weekday ordinal effective_start effective_end year (month + 1) end_year end_month)
  else []
termination_by (end_year + 1 - year) * 14 + (13 - month)
decreasing_by
  all_goals omega

/-- Generate all occurrence timestamps for a series within a window
(`recurrence.rs::generate_occurrences`). -/
def generate_occurrences (series : EventSeries) (window_start window_end : Nat) :
    List Nat :=
  let effective_start := max window_start series.start_date
  let effective_end :=
    match series.end_date with
    | some e => min window_end e
    | none => window_end
  if effective_end ≤ effective_start then []
  else
    match series.frequency with
    | .Monthly =>
      let ordinal := series.weekday_ordinal.getD WeekdayOrdinal.First
      let sym := nanos_to_ymd effective_start
      let eym := nanos_to_ymd effective_end
      monthlyOccs series.weekday ordinal effective_start effective_end
        sym.1 sym.2.1 eym.1 eym.2.1
    | .Weekly | .Biweekly =>
      let target_wd := series.weekday.toNat
      let start_wd := weekday_from_nanos effective_start
      let days_until := (target_wd + 7 - start_wd) % 7
      let first_occ := effective_start + days_until * 86400 * 1000000000
      weeklyOccs series.frequency first_occ effective_end series.start_date

/-- Deterministic instance id from series id and occurrence start
(`recurrence.rs::generate_instance_id`).  The source truncates a SHA-256
digest of the two inputs to 16 bytes; it is modelled as an injective
deterministic pairing, matching the data-model requirement that two distinct
occurrence keys of the same rule never collide. -/
def generate_instance_id (series_id : Uuid) (occurrence_start : Nat) : Uuid :=
  Nat.pair series_id occurrence_start

/-- Calculate the window end from the forward-window size in months
(`recurrence.rs::calculate_window_end`): step `months` months forward, then
take the last nanosecond of that month. -/
def calculate_window_end (from_ : Nat) (months : Nat) : Nat :=
  let ym0 := nanos_to_ymd from_
  let ym := (List.range months).foldl
    (fun ym _ => if 12 < ym.2 + 1 then (ym.1 + 1, 1) else (ym.1, ym.2 + 1))
    (ym0.1, ym0.2.1)
  let last_day := days_in_month ym.1 ym.2
  ymd_to_nanos ym.1 ym.2 last_day + 86400 * 1000000000 - 1

-- ===========================================================================
-- Storage state (storage.rs)
-- ===========================================================================

/-- The key-value stores of `storage.rs` (thread-local `BTreeMap`s / a settings
cell), modelled as explicit lists in iteration order plus the settings record.
Notification jobs are not modelled: no claim concerns them and they never feed
back into the stores below. -/
structure State where
  users : List User
  series : List EventSeries
  overrides : List InstanceOverride
  instances : List EventInstance
  settings : GlobalSettings
deriving Repr

/-- Lookup of a user by principal (`storage.rs::get_user`). -/
def get_user (st : State) (principal : Principal) : Option User :=
  st.users.find? (fun u => u.principal == principal)

/-- Lookup of a series by id (`storage.rs::get_series`). -/
def get_series (st : State) (series_id : Uuid) : Option EventSeries :=
  st.series.find? (fun s => s.series_id == series_id)

/-- Lookup of an override by its (series id, occurrence start) key
(`storage.rs::get_override`). -/
def get_override (st : State) (key : OverrideKey) : Option InstanceOverride :=
  st.overrides.find? (fun o =>
    o.series_id == key.series_id && o.occurrence_start_utc == key.occurrence_start_utc)

/-- Lookup of a one-off instance by id (`storage.rs::get_instance`). -/
def get_instance (st : State) (instance_id : Uuid) : Option EventInstance :=
  st.instances.find? (fun i => i.instance_id == instance_id)

/-- Replace the first entry with the same override key, or append
(`storage.rs::insert_override`; a `BTreeMap` insert keyed by the override key). -/
def upsert_override (ovr : InstanceOverride) :
    List InstanceOverride → List InstanceOverride
  | [] => [ovr]
  | o :: os =>
    if o.series_id == ovr.series_id && o.occurrence_start_utc == ovr.occurrence_start_utc then
      ovr :: os
    else
      o :: upsert_override ovr os

/-- State update of `storage.rs::insert_override`. -/
def insert_override (st : State) (ovr : InstanceOverride) : State :=
  { st with overrides := upsert_override ovr st.overrides }

/-- Replace the first entry with the same instance id, or append
(`storage.rs::insert_instance`; a `BTreeMap` insert keyed by the instance id). -/
def upsert_instance (inst : EventInstance) : List EventInstance → List EventInstance
  | [] => [inst]
  | i :: is_ =>
    if i.instance_id == inst.instance_id then
      inst :: is_
    else
      i :: upsert_instance inst is_

/-- State update of `storage.rs::insert_instance`. -/
def insert_instance (st : State) (inst : EventInstance) : State :=
  { st with instances := upsert_instance inst st.instances }

-- ===========================================================================
-- Authorization helpers (auth.rs)
-- ===========================================================================

/-- Whether a user is available for assignment: not disabled, and no
out-of-office block overlaps the event window under half-open interval
overlap (`auth.rs::can_be_assigned_host`).  The source loop returns `false`
on the first overlapping block; the `List.all` of the negations is the same
Bool. -/
def can_be_assigned_host (user : User) (event_start event_end : Nat) : Bool :=
  if user.status == UserStatus.Disabled then false
  else user.out_of_office.all (fun ooo =>
    !(decide (event_start < ooo.end_utc) && decide (event_end > ooo.start_utc)))

/-- Whether a principal is an active administrator (`auth.rs::is_admin`). -/
def is_admin (st : State) (principal : Principal) : Bool :=
  match get_user st principal with
  | some user => user.role == Role.Admin && user.status == UserStatus.Active
  | none => false

-- ===========================================================================
-- Materialization (recurrence.rs)
-- ===========================================================================

/-- The effective-host expression of the overlay resolver, written inline and
identically in `recurrence.rs::materialize_events` and
`coverage.rs::get_event_instance`: `None` when the override has the
`host_cleared` flag set, otherwise the override's `host_principal` if any. -/
def effective_host (ovr : Option InstanceOverride) : Option Principal :=
  if (ovr.map (fun o => o.host_cleared)).getD false then none
  else ovr.bind (fun o => o.host_principal)

/-- The per-series body of `recurrence.rs::materialize_events`: generate the
occurrences of one series inside the window and resolve each against its
override, dropping cancelled ones.  The source builds the `EventInstance`
with the series' `title`, `link` and `color` and the override-resolved
`start`, `end`, `notes` and host. -/
def materialize_series (st : State) (series : EventSeries)
    (window_start window_end : Nat) : List EventInstance :=
  let occurrences := generate_occurrences series window_start window_end
  let duration_nanos := series.default_duration_minutes * 60 * 1000000000
  occurrences.filterMap (fun occ_start =>
    let ovr := get_override st ⟨series.series_id, occ_start⟩
    if (ovr.map (fun o => o.cancelled)).getD false then none
    else some {
      instance_id := generate_instance_id series.series_id occ_start
      series_id := some series.series_id
      start_utc := (ovr.bind (fun o => o.start_utc)).getD occ_start
      end_utc := (ovr.bind (fun o => o.end_utc)).getD (occ_start + duration_nanos)
      title := series.title
      notes := (ovr.bind (fun o => o.notes)).getD series.notes
      link := series.link
      host_principal := effective_host ovr
      status := EventStatus.Active
      color := series.color
      created_at := series.created_at })

/-- Stable insertion step of the final sort: keep `x` before the first element
with a strictly larger start.  Together with `sortByStart` this models
`results.sort_by_key(|e| e.start_utc)` of `recurrence.rs::materialize_events`:
a stable sort by `start_utc`, whose output is uniquely determined by stability. -/
def insertByStart (x : EventInstance) : List EventInstance → List EventInstance
  | [] => [x]
  | y :: ys =>
    if x.start_utc < y.start_utc then x :: y :: ys
    else y :: insertByStart x ys

/-- Stable sort by `start_utc` (see `insertByStart`). -/
def sortByStart (l : List EventInstance) : List EventInstance :=
  l.foldr insertByStart []

/-- Materialize all events within a window
(`recurrence.rs::materialize_events`): expand every series, overlay the
overrides, merge the active one-off instances whose start lies in the window,
and sort by start time.  The `settings` and `now` bindings of the source are
dead (never read) and are omitted. -/
def materialize_events (st : State) (window_start window_end : Nat) :
    List EventInstance :=
  let fromSeries :=
    st.series.foldr (fun s acc => materialize_series st s window_start window_end ++ acc) []
  let oneOffs := st.instances.filter (fun inst =>
    decide (window_start ≤ inst.start_utc) && decide (inst.start_utc < window_end) &&
      inst.status == EventStatus.Active)
  sortByStart (fromSeries ++ oneOffs)

-- ===========================================================================
-- Coverage assignment (coverage.rs)
-- ===========================================================================

/-- Resolve the timing used for the out-of-office check
(`coverage.rs::get_event_timing`).  Note: when an override has a start
override but no end override, the end is computed from the OVERRIDDEN start
plus the series duration (`start + duration_nanos` in the source), unlike the
materializer, which uses the original occurrence start. -/
def get_event_timing (st : State) (series_id : Option Uuid)
    (occurrence_start : Option Nat) (instance_id : Uuid) : ApiResult (Nat × Nat) :=
  match series_id with
  | some sid =>
    match occurrence_start with
    | none => Except.error (ApiError.InvalidInput "occurrence_start required for series instance")
    | some occ_start =>
      match get_series st sid with
      | none => Except.error ApiError.NotFound
      | some series =>
        let duration_nanos := series.default_duration_minutes * 60 * 1000000000
        match get_override st ⟨sid, occ_start⟩ with
        | some ovr =>
          let start := ovr.start_utc.getD occ_start
          let «end» := ovr.end_utc.getD (start + duration_nanos)
          Except.ok (start, «end»)
        | none => Except.ok (occ_start, occ_start + duration_nanos)
  | none =>
    match get_instance st instance_id with
    | none => Except.error ApiError.NotFound
    | some inst => Except.ok (inst.start_utc, inst.end_utc)

/-- Resolve a single event instance (`coverage.rs::get_event_instance`):
for a series occurrence, overlay the override (NotFound when cancelled); for a
one-off, read it from storage. -/
def get_event_instance (st : State) (series_id : Option Uuid)
    (occurrence_start : Option Nat) (instance_id : Uuid) : ApiResult EventInstance :=
  match series_id with
  | some sid =>
    match occurrence_start with
    | none => Except.error (ApiError.InvalidInput "occurrence_start required")
    | some occ_start =>
      match get_series st sid with
      | none => Except.error ApiError.NotFound
      | some series =>
        let duration_nanos := series.default_duration_minutes * 60 * 1000000000
        let ovr := get_override st ⟨sid, occ_start⟩
        if (ovr.map (fun o => o.cancelled)).getD false then
          Except.error ApiError.NotFound
        else
          Except.ok {
            instance_id := generate_instance_id sid occ_start
            series_id := some sid
            start_utc := (ovr.bind (fun o => o.start_utc)).getD occ_start
            end_utc := (ovr.bind (fun o => o.end_utc)).getD (occ_start + duration_nanos)
            title := series.title
            notes := (ovr.bind (fun o => o.notes)).getD series.notes
            link := series.link
            host_principal := effective_host ovr
            status := EventStatus.Active
            color := series.color
            created_at := series.created_at }
  | none =>
    match get_instance st instance_id with
    | none => Except.error ApiError.NotFound
    | some inst => Except.ok inst

/-- The fresh override written by `coverage.rs` when none exists yet
(the `unwrap_or(InstanceOverride { .. })` defaults in `assign_host` and
`unassign_host`). -/
def fresh_override (sid : Uuid) (occ_start now : Nat) (caller : Principal) :
    InstanceOverride :=
  { series_id := sid
    occurrence_start_utc := occ_start
    start_utc := none
    end_utc := none
    notes := none
    host_principal := none
    host_cleared := false
    cancelled := false
    updated_at := now
    updated_by := caller }

/-- Assign a host to an event instance (`coverage.rs::assign_host`), returning
the result together with the post-state.  `now` models `ic_cdk::api::time()`,
used only for the override metadata.  The notification side effect is outside
the modelled stores. -/
def assign_host (st : State) (now : Nat) (series_id : Option Uuid)
    (occurrence_start : Option Nat) (instance_id : Uuid)
    (host_principal : Principal) (caller : Principal) (admin_override : Bool) :
    ApiResult EventInstance × State :=
  if st.settings.claims_paused && !is_admin st caller then
    (Except.error (ApiError.Conflict "Claims are currently paused"), st)
  else
    match get_user st host_principal with
    | none => (Except.error ApiError.NotFound, st)
    | some host_user =>
      match get_event_timing st series_id occurrence_start instance_id with
      | Except.error e => (Except.error e, st)
      | Except.ok (event_start, event_end) =>
        if !admin_override && !can_be_assigned_host host_user event_start event_end then
          (Except.error (ApiError.Conflict
            "User cannot be assigned (disabled or on out-of-office)"), st)
        else
          match series_id with
          | some sid =>
            match occurrence_start with
            | none =>
              (Except.error (ApiError.InvalidInput
                "occurrence_start required for series instance"), st)
            | some occ_start =>
              let ovr0 := (get_override st ⟨sid, occ_start⟩).getD
                (fresh_override sid occ_start now caller)
              let ovr := { ovr0 with
                host_principal := some host_principal
                host_cleared := false
                updated_at := now
                updated_by := caller }
              let st' := insert_override st ovr
              (get_event_instance st' series_id occurrence_start instance_id, st')
          | none =>
            match get_instance st instance_id with
            | none => (Except.error ApiError.NotFound, st)
            | some inst =>
              let st' := insert_instance st { inst with host_principal := some host_principal }
              (get_event_instance st' series_id occurrence_start instance_id, st')

/-- Unassign the host from an event instance (`coverage.rs::unassign_host`).
The previous instance is resolved BEFORE the write (so a cancelled occurrence
makes the whole call fail first); the previous host is only used for the
unmodelled notification side effect. -/
def unassign_host (st : State) (now : Nat) (series_id : Option Uuid)
    (occurrence_start : Option Nat) (instance_id : Uuid) (caller : Principal) :
    ApiResult EventInstance × State :=
  if st.settings.claims_paused && !is_admin st caller then
    (Except.error (ApiError.Conflict "Claims are currently paused"), st)
  else
    match get_event_timing st series_id occurrence_start instance_id with
    | Except.error e => (Except.error e, st)
    | Except.ok _ =>
      match get_event_instance st series_id occurrence_start instance_id with
      | Except.error e => (Except.error e, st)
      | Except.ok _previous_instance =>
        match series_id with
        | some sid =>
          match occurrence_start with
          | none =>
            (Except.error (ApiError.InvalidInput
              "occurrence_start required for series instance"), st)
          | some occ_start =>
            let ovr0 := (get_override st ⟨sid, occ_start⟩).getD
              (fresh_override sid occ_start now caller)
            let ovr := { ovr0 with
              host_principal := none
              host_cleared := true
              updated_at := now
              updated_by := caller }
            let st' := insert_override st ovr
            (get_event_instance st' series_id occurrence_start instance_id, st')
        | none =>
          match get_instance st instance_id with
          | none => (Except.error ApiError.NotFound, st)
          | some inst =>
            let st' := insert_instance st { inst with host_principal := none }
            (get_event_instance st' series_id occurrence_start instance_id, st')

-- ===========================================================================
-- Helper lemmas
-- ===========================================================================

theorem mem_insertByStart {y x : EventInstance} {l : List EventInstance} :
    y ∈ insertByStart x l ↔ y = x ∨ y ∈ l := by
  induction l with
  | nil => simp [insertByStart]
  | cons z zs ih =>
    unfold insertByStart
    split
    · simp
    · simp only [List.mem_cons, ih]
      tauto

theorem pairwise_insertByStart {x : EventInstance} {l : List EventInstance}
    (h : l.Pairwise (fun a b => a.start_utc ≤ b.start_utc)) :
    (insertByStart x l).Pairwise (fun a b => a.start_utc ≤ b.start_utc) := by
  induction l with
  | nil => simp [insertByStart]
  | cons z zs ih =>
    rw [List.pairwise_cons] at h
    unfold insertByStart
    split
    · rename_i hlt
      rw [List.pairwise_cons]
      refine ⟨?_, List.pairwise_cons.mpr h⟩
      intro b hb
      rcases List.mem_cons.mp hb with hb | hb
      · subst hb; omega
      · have := h.1 b hb
        omega
    · rename_i hge
      rw [List.pairwise_cons]
      refine ⟨?_, ih h.2⟩
      intro b hb
      rcases mem_insertByStart.mp hb with hb | hb
      · subst hb; omega
      · exact h.1 b hb

theorem pairwise_sortByStart (l : List EventInstance) :
    (sortByStart l).Pairwise (fun a b => a.start_utc ≤ b.start_utc) := by
  unfold sortByStart
  induction l with
  | nil => simp
  | cons x xs ih => exact pairwise_insertByStart ih

-- ===========================================================================
-- Claim theorems
-- ===========================================================================

/-- C7: materialize_events is deterministic — it is a pure function of the
stored state and the window, with no dependence on time or randomness (the
embedding threads the entire storage state explicitly, and the source's
unused `now`/`settings` reads are dead), so two calls on equal states with
identical windows return identical lists — and its output is sorted
ascending by effective start instant. -/
theorem materialize_deterministic_sorted (st₁ st₂ : State) (ws we : Nat)
    (h : st₁ = st₂) :
    materialize_events st₁ ws we = materialize_events st₂ ws we ∧
    (materialize_events st₁ ws we).Pairwise (fun a b => a.start_utc ≤ b.start_utc) := by
  constructor
  · rw [h]
  · exact pairwise_sortByStart _

/-- C7 witness: the theorem applied at a concrete (empty) state. -/
theorem materialize_deterministic_sorted_witness :
    materialize_events ⟨[], [], [], [], ⟨2, false, 60⟩⟩ 0 1000 =
      materialize_events ⟨[], [], [], [], ⟨2, false, 60⟩⟩ 0 1000 ∧
    (materialize_events ⟨[], [], [], [], ⟨2, false, 60⟩⟩ 0 1000).Pairwise
      (fun a b => a.start_utc ≤ b.start_utc) :=
  materialize_deterministic_sorted _ _ 0 1000 rfl

/-- C8: for every year and every month 1..12, `nth_weekday_of_month` returns
`some` for ordinal `Last` and for every ordinal `First`..`Fourth`: the
computed day number is at most `1 + 6 + 3*7 = 28`, which never exceeds the
month's day count, so the `None` branch is unreachable for those ordinals. -/
theorem nth_weekday_total (year month : Nat) (weekday : Weekday)
    (ordinal : WeekdayOrdinal) (_hy : 1970 ≤ year) (hm1 : 1 ≤ month)
    (hm2 : month ≤ 12) :
    (nth_weekday_of_month year month weekday ordinal).isSome = true := by
  have hdm : 28 ≤ days_in_month year month := by
    unfold days_in_month
    interval_cases month <;> simp <;> split <;> omega
  have hwd : weekday_from_nanos (ymd_to_nanos year month 1) < 7 := by
    unfold weekday_from_nanos
    omega
  cases ordinal <;>
    simp only [nth_weekday_of_month, WeekdayOrdinal.toNat, Option.isSome_some] <;>
    try rfl
  all_goals
    rw [if_pos (by omega)]
    rfl

/-- C8 witness: concrete instantiation at May 1971. -/
theorem nth_weekday_total_witness :
    (nth_weekday_of_month 1971 5 Weekday.Sun WeekdayOrdinal.Fourth).isSome = true :=
  nth_weekday_total 1971 5 Weekday.Sun WeekdayOrdinal.Fourth (by decide) (by decide)
    (by decide)

/-- C9: the materializer never reads a series' `paused` flag: flipping the
flag of every series by an arbitrary function `p` (in particular of any one
series), with all other stored data identical, leaves the output of
`materialize_events` unchanged for every window. -/
theorem paused_flag_not_read (st₁ st₂ : State) (ws we : Nat)
    (p : EventSeries → Bool)
    (h : st₂ = { st₁ with series := st₁.series.map (fun s => { s with paused := p s }) }) :
    materialize_events st₂ ws we = materialize_events st₁ ws we := by
  subst h
  unfold materialize_events
  rw [List.foldr_map]
  rfl

/-- C9 witness: a one-series state with the flag set against the same state
with the flag clear. -/
theorem paused_flag_not_read_witness :
    materialize_events
      ⟨[], [⟨1, "t", "n", none, Frequency.Weekly, Weekday.Thu, none, 0, none, 60, none,
        true, 0, 0⟩], [], [], ⟨2, false, 60⟩⟩ 0 604800000000000 =
    materialize_events
      ⟨[], [⟨1, "t", "n", none, Frequency.Weekly, Weekday.Thu, none, 0, none, 60, none,
        false, 0, 0⟩], [], [], ⟨2, false, 60⟩⟩ 0 604800000000000 :=
  paused_flag_not_read _ _ 0 604800000000000 (fun _ => true) rfl

/-- C6: tri-state host resolution of the overlay.  Every non-cancelled
occurrence generated for a series materializes with effective host: none when
no exception record exists; none when the exception's `host_cleared` flag is
set, even if the exception also carries an assigned host; otherwise the
exception's assigned host if present; otherwise none. -/
theorem tri_state_host_resolution (st : State) (s : EventSeries) (ws we occ : Nat)
    (hocc : occ ∈ generate_occurrences s ws we)
    (hnc : ((get_override st ⟨s.series_id, occ⟩).map (fun o => o.cancelled)).getD false
      = false) :
    ∃ inst ∈ materialize_series st s ws we,
      inst.instance_id = generate_instance_id s.series_id occ ∧
      inst.host_principal =
        (match get_override st ⟨s.series_id, occ⟩ with
         | none => none
         | some o => if o.host_cleared then none else o.host_principal) := by
  refine ⟨{
      instance_id := generate_instance_id s.series_id occ
      series_id := some s.series_id
      start_utc := ((get_override st ⟨s.series_id, occ⟩).bind (fun o => o.start_utc)).getD occ
      end_utc := ((get_override st ⟨s.series_id, occ⟩).bind (fun o => o.end_utc)).getD
        (occ + s.default_duration_minutes * 60 * 1000000000)
      title := s.title
      notes := ((get_override st ⟨s.series_id, occ⟩).bind (fun o => o.notes)).getD s.notes
      link := s.link
      host_principal := effective_host (get_override st ⟨s.series_id, occ⟩)
      status := EventStatus.Active
      color := s.color
      created_at := s.created_at }, ?_, rfl, ?_⟩
  · unfold materialize_series
    exact List.mem_filterMap.mpr ⟨occ, hocc, by
      rw [if_neg (by rw [hnc]; exact Bool.false_ne_true)]⟩
  · show effective_host (get_override st ⟨s.series_id, occ⟩) = _
    unfold effective_host
    cases get_override st ⟨s.series_id, occ⟩ with
    | none => rfl
    | some o => cases h : o.host_cleared <;> simp [h]

set_option maxRecDepth 2000 in
/-- C6 witness: a weekly Thursday series starting at the epoch with an
exception that both carries an assigned host and has the cleared flag set:
the cleared flag wins and the materialized host is none. -/
theorem tri_state_host_resolution_witness :
    ∃ inst ∈ materialize_series
      ⟨[], [⟨1, "t", "n", none, Frequency.Weekly, Weekday.Thu, none, 0, none, 60, none,
          false, 0, 0⟩],
        [⟨1, 0, none, none, none, some 5, true, false, 0, 9⟩], [], ⟨2, false, 60⟩⟩
      ⟨1, "t", "n", none, Frequency.Weekly, Weekday.Thu, none, 0, none, 60, none,
          false, 0, 0⟩ 0 604800000000000,
      inst.instance_id = generate_instance_id 1 0 ∧ inst.host_principal = none := by
  have h := tri_state_host_resolution
    ⟨[], [⟨1, "t", "n", none, Frequency.Weekly, Weekday.Thu, none, 0, none, 60, none,
        false, 0, 0⟩],
      [⟨1, 0, none, none, none, some 5, true, false, 0, 9⟩], [], ⟨2, false, 60⟩⟩
    ⟨1, "t", "n", none, Frequency.Weekly, Weekday.Thu, none, 0, none, 60, none,
        false, 0, 0⟩ 0 604800000000000 0
    (by simp [generate_occurrences, weeklyOccs, interval_nanos, weekday_from_nanos,
      nanos_to_days, Weekday.toNat])
    (by rfl)
  simpa using h

theorem get_event_timing_not_conflict (st : State) (sid : Option Uuid)
    (occ : Option Nat) (iid : Uuid) (msg : String) :
    get_event_timing st sid occ iid ≠ Except.error (ApiError.Conflict msg) := by
  cases sid with
  | none => cases h : get_instance st iid <;> simp [get_event_timing, h]
  | some s =>
    cases occ with
    | none => simp [get_event_timing]
    | some o =>
      cases h : get_series st s with
      | none => simp [get_event_timing, h]
      | some se => cases h2 : get_override st ⟨s, o⟩ <;> simp [get_event_timing, h, h2]

theorem get_event_instance_not_conflict (st : State) (sid : Option Uuid)
    (occ : Option Nat) (iid : Uuid) (msg : String) :
    get_event_instance st sid occ iid ≠ Except.error (ApiError.Conflict msg) := by
  cases sid with
  | none => cases h : get_instance st iid <;> simp [get_event_instance, h]
  | some s =>
    cases occ with
    | none => simp [get_event_instance]
    | some o =>
      cases h : get_series st s with
      | none => simp [get_event_instance, h]
      | some se =>
        simp only [get_event_instance, h]
        split <;> simp

/-- C4: pause gate.  With `claims_paused = true`, an `assign_host` or
`unassign_host` call by a caller who is not an active administrator fails
with `Conflict` and leaves the state unchanged, regardless of the
`admin_override` flag; a call by an active administrator is never rejected by
the pause gate (its result is never the pause `Conflict`; for `unassign_host`
it is never any `Conflict` at all). -/
theorem pause_gate_conflict (st : State) (now : Nat) (sid : Option Uuid)
    (occ : Option Nat) (iid : Uuid) (h c : Principal) (ao : Bool) :
    (st.settings.claims_paused = true → is_admin st c = false →
      assign_host st now sid occ iid h c ao =
        (Except.error (ApiError.Conflict "Claims are currently paused"), st) ∧
      unassign_host st now sid occ iid c =
        (Except.error (ApiError.Conflict "Claims are currently paused"), st)) ∧
    (is_admin st c = true →
      (assign_host st now sid occ iid h c ao).1 ≠
        Except.error (ApiError.Conflict "Claims are currently paused") ∧
      ∀ msg, (unassign_host st now sid occ iid c).1 ≠
        Except.error (ApiError.Conflict msg)) := by
  constructor
  · intro hp ha
    constructor
    · simp [assign_host, hp, ha]
    · simp [unassign_host, hp, ha]
  · intro ha
    have hb : (st.settings.claims_paused && !is_admin st c) = false := by
      simp [ha]
    constructor
    · cases hu : get_user st h with
      | none => simp [assign_host, hb, hu]
      | some huser =>
        cases ht : get_event_timing st sid occ iid with
        | error e =>
          intro heq
          apply get_event_timing_not_conflict st sid occ iid "Claims are currently paused"
          rw [ht]
          simp [assign_host, hb, hu, ht] at heq
          rw [heq]
        | ok p =>
          by_cases hel : (!ao && !can_be_assigned_host huser p.1 p.2) = true
          · simp [assign_host, hb, hu, ht, hel]
          · rw [Bool.not_eq_true] at hel
            cases sid with
            | some s =>
              cases occ with
              | none => simp [assign_host, hb, hu, ht, hel]
              | some o =>
                simp only [assign_host, hb, hu, ht, hel]
                simp only [Bool.false_eq_true, if_false]
                exact get_event_instance_not_conflict _ _ _ _ _
            | none =>
              cases hi : get_instance st iid with
              | none => simp [assign_host, hb, hu, ht, hel, hi]
              | some inst =>
                simp only [assign_host, hb, hu, ht, hel, hi]
                simp only [Bool.false_eq_true, if_false]
                exact get_event_instance_not_conflict _ _ _ _ _
    · intro msg
      cases ht : get_event_timing st sid occ iid with
      | error e =>
        intro heq
        apply get_event_timing_not_conflict st sid occ iid msg
        rw [ht]
        simp [unassign_host, hb, ht] at heq
        rw [heq]
      | ok p =>
        cases hgi : get_event_instance st sid occ iid with
        | error e =>
          intro heq
          apply get_event_instance_not_conflict st sid occ iid msg
          rw [hgi]
          simp [unassign_host, hb, ht, hgi] at heq
          rw [heq]
        | ok prev =>
          cases sid with
          | some s =>
            cases occ with
            | none => simp [unassign_host, hb, ht, hgi]
            | some o =>
              simp only [unassign_host, hb, ht, hgi]
              simp only [Bool.false_eq_true, if_false]
              exact get_event_instance_not_conflict _ _ _ _ _
          | none =>
            cases hi : get_instance st iid with
            | none => simp [unassign_host, hb, ht, hgi, hi]
            | some inst =>
              simp only [unassign_host, hb, ht, hgi, hi]
              simp only [Bool.false_eq_true, if_false]
              exact get_event_instance_not_conflict _ _ _ _ _

/-- A paused state with a plain active user (principal 7) and an active
administrator (principal 8), used by the pause-gate witness. -/
def pausedState : State :=
  ⟨[⟨7, "u", "e", Role.User, UserStatus.Active, [], 0, 0, 0, 0⟩,
    ⟨8, "a", "e", Role.Admin, UserStatus.Active, [], 0, 0, 0, 0⟩],
    [], [], [], ⟨2, true, 60⟩⟩

/-- C4 witness: in a paused state, a non-admin caller's assign call is
rejected with the pause Conflict; an admin's unassign is never a Conflict. -/
theorem pause_gate_conflict_witness :
    assign_host pausedState 0 none none 42 7 7 false =
      (Except.error (ApiError.Conflict "Claims are currently paused"), pausedState) ∧
    ∀ msg, (unassign_host pausedState 0 none none 42 8).1 ≠
      Except.error (ApiError.Conflict msg) := by
  constructor
  · exact ((pause_gate_conflict pausedState 0 none none 42 7 7 false).1 rfl rfl).1
  · exact ((pause_gate_conflict pausedState 0 none none 42 7 8 false).2 rfl).2

theorem can_be_assigned_host_false_iff (u : User) (es ee : Nat) :
    can_be_assigned_host u es ee = false ↔
      u.status = UserStatus.Disabled ∨
        ∃ b ∈ u.out_of_office, b.start_utc < ee ∧ b.end_utc > es := by
  cases hst : u.status with
  | Disabled => simp [can_be_assigned_host, hst]
  | Active =>
    simp only [can_be_assigned_host, hst]
    rw [if_neg (by simp)]
    rw [List.all_eq_false]
    constructor
    · rintro ⟨b, hb, hfb⟩
      refine Or.inr ⟨b, hb, ?_⟩
      simp at hfb
      omega
    · rintro (h | ⟨b, hb, h1, h2⟩)
      · simp [hst] at h
      · refine ⟨b, hb, ?_⟩
        simp
        omega

/-- C5: eligibility.  An `assign_host` call with `admin_override = false` that
passes the pause gate, whose host principal resolves to a user, and whose
target occurrence resolves (via `get_event_timing`) to the effective window
`[es, ee)`, fails with the eligibility `Conflict` exactly when the host is
disabled or some out-of-office block `[oooStart, oooEnd)` of the host
satisfies `oooStart < ee && oooEnd > es`; any such rejection leaves the state
unchanged; and with `admin_override = true` the eligibility check is bypassed
entirely (no `Conflict` of any kind is possible). -/
theorem eligibility_conflict_iff (st : State) (now : Nat) (sid : Option Uuid)
    (occ : Option Nat) (iid : Uuid) (h c : Principal) (huser : User)
    (es ee : Nat)
    (hpause : (st.settings.claims_paused && !is_admin st c) = false)
    (hu : get_user st h = some huser)
    (ht : get_event_timing st sid occ iid = Except.ok (es, ee)) :
    ((assign_host st now sid occ iid h c false).1 =
        Except.error (ApiError.Conflict
          "User cannot be assigned (disabled or on out-of-office)") ↔
      (huser.status = UserStatus.Disabled ∨
        ∃ b ∈ huser.out_of_office, b.start_utc < ee ∧ b.end_utc > es)) ∧
    ((assign_host st now sid occ iid h c false).1 =
        Except.error (ApiError.Conflict
          "User cannot be assigned (disabled or on out-of-office)") →
      (assign_host st now sid occ iid h c false).2 = st) ∧
    (∀ msg, (assign_host st now sid occ iid h c true).1 ≠
      Except.error (ApiError.Conflict msg)) := by
  refine ⟨?_, ?_, ?_⟩
  · rw [← can_be_assigned_host_false_iff huser es ee]
    cases hel : can_be_assigned_host huser es ee with
    | false =>
      simp [assign_host, hpause, hu, ht, hel]
    | true =>
      constructor
      · intro heq
        exfalso
        cases sid with
        | some s =>
          cases occ with
          | none =>
            simp [assign_host, hpause, hu, ht, hel] at heq
          | some o =>
            simp only [assign_host, hpause, hu, ht, hel, Bool.not_true,
              Bool.and_false, Bool.false_eq_true, if_false] at heq
            exact get_event_instance_not_conflict _ _ _ _ _ heq
        | none =>
          cases hi : get_instance st iid with
          | none =>
            simp [assign_host, hpause, hu, ht, hel, hi] at heq
          | some inst =>
            simp only [assign_host, hpause, hu, ht, hel, hi, Bool.not_true,
              Bool.and_false, Bool.false_eq_true, if_false] at heq
            exact get_event_instance_not_conflict _ _ _ _ _ heq
      · intro hfalse
        cases hfalse
  · intro heq
    cases hel : can_be_assigned_host huser es ee with
    | false => simp [assign_host, hpause, hu, ht, hel]
    | true =>
      exfalso
      cases sid with
      | some s =>
        cases occ with
        | none =>
          simp [assign_host, hpause, hu, ht, hel] at heq
        | some o =>
          simp only [assign_host, hpause, hu, ht, hel, Bool.not_true,
            Bool.and_false, Bool.false_eq_true, if_false] at heq
          exact get_event_instance_not_conflict _ _ _ _ _ heq
      | none =>
        cases hi : get_instance st iid with
        | none =>
          simp [assign_host, hpause, hu, ht, hel, hi] at heq
        | some inst =>
          simp only [assign_host, hpause, hu, ht, hel, hi, Bool.not_true,
            Bool.and_false, Bool.false_eq_true, if_false] at heq
          exact get_event_instance_not_conflict _ _ _ _ _ heq
  · intro msg heq
    cases sid with
    | some s =>
      cases occ with
      | none =>
        simp [assign_host, hpause, hu, ht] at heq
      | some o =>
        simp only [assign_host, hpause, hu, ht, Bool.not_true,
          Bool.false_and, Bool.false_eq_true, if_false] at heq
        exact get_event_instance_not_conflict _ _ _ _ _ heq
    | none =>
      cases hi : get_instance st iid with
      | none =>
        simp [assign_host, hpause, hu, ht, hi] at heq
      | some inst =>
        simp only [assign_host, hpause, hu, ht, hi, Bool.not_true,
          Bool.false_and, Bool.false_eq_true, if_false] at heq
        exact get_event_instance_not_conflict _ _ _ _ _ heq

/-- An active host (principal 5) with one out-of-office block `[1000, 2000)`,
used by the eligibility witness. -/
def eligHost : User :=
  ⟨5, "h", "e", Role.User, UserStatus.Active, [⟨1000, 2000⟩], 0, 0, 0, 0⟩

/-- A state with `eligHost` and two one-off sessions: instance 42 over
`[1000, 2000)` (exactly the OOO block) and instance 43 over `[500, 1000)`
(back-to-back with the block), used by the eligibility witness. -/
def eligState : State :=
  ⟨[eligHost], [], [],
    [⟨42, none, 1000, 2000, "a", "", none, none, EventStatus.Active, none, 0⟩,
     ⟨43, none, 500, 1000, "b", "", none, none, EventStatus.Active, none, 0⟩],
    ⟨2, false, 60⟩⟩

/-- C5 witness: assigning the host to the session exactly equal to its OOO
block is rejected with the eligibility Conflict; assigning to the session
ending exactly at the block's start is not. -/
theorem eligibility_conflict_iff_witness :
    (assign_host eligState 0 none none 42 5 9 false).1 =
      Except.error (ApiError.Conflict
        "User cannot be assigned (disabled or on out-of-office)") ∧
    (assign_host eligState 0 none none 43 5 9 false).1 ≠
      Except.error (ApiError.Conflict
        "User cannot be assigned (disabled or on out-of-office)") := by
  constructor
  · exact (eligibility_conflict_iff eligState 0 none none 42 5 9 eligHost 1000 2000
      rfl rfl rfl).1.mpr (Or.inr (by decide))
  · intro heq
    have h2 := (eligibility_conflict_iff eligState 0 none none 43 5 9 eligHost 500 1000
      rfl rfl rfl).1.mp heq
    revert h2
    decide

theorem find?_upsert_instance_self (x : EventInstance) (l : List EventInstance) :
    (upsert_instance x l).find? (fun i => i.instance_id == x.instance_id) = some x := by
  induction l with
  | nil => simp [upsert_instance]
  | cons y ys ih =>
    unfold upsert_instance
    by_cases hy : y.instance_id = x.instance_id
    · simp [hy, List.find?]
    · rw [if_neg (by simpa using hy)]
      rw [List.find?]
      rw [show (y.instance_id == x.instance_id) = false by simpa using hy]
      exact ih

theorem find?_upsert_instance_other (x : EventInstance) (l : List EventInstance)
    (j : Uuid) (hj : j ≠ x.instance_id) :
    (upsert_instance x l).find? (fun i => i.instance_id == j) =
      l.find? (fun i => i.instance_id == j) := by
  induction l with
  | nil =>
    simp [upsert_instance, List.find?,
      show (x.instance_id == j) = false by simpa using (Ne.symm hj)]
  | cons y ys ih =>
    unfold upsert_instance
    by_cases hy : y.instance_id = x.instance_id
    · rw [if_pos (by simpa using hy)]
      rw [List.find?, List.find?]
      rw [show (x.instance_id == j) = false by simpa using (Ne.symm hj)]
      rw [show (y.instance_id == j) = false by rw [hy]; simpa using Ne.symm hj]
    · rw [if_neg (by simpa using hy)]
      rw [List.find?, List.find?]
      cases hyj : (y.instance_id == j) with
      | true => rfl
      | false => exact ih

/-- C10: frame effect on one-off instances.  A successful `assign_host`
(resp. `unassign_host`) on an existing one-off instance changes only that
instance's `host_principal` field — every other field, every other stored
instance, and the override/series/user/settings stores are unchanged. -/
theorem oneoff_assignment_frame (st : State) (now : Nat) (iid : Uuid)
    (h c : Principal) (ao : Bool) (inst out : EventInstance) (st' : State)
    (hi : get_instance st iid = some inst) :
    (assign_host st now none none iid h c ao = (Except.ok out, st') →
      st'.overrides = st.overrides ∧ st'.series = st.series ∧
      st'.users = st.users ∧ st'.settings = st.settings ∧
      get_instance st' iid = some { inst with host_principal := some h } ∧
      ∀ j, j ≠ iid → get_instance st' j = get_instance st j) ∧
    (unassign_host st now none none iid c = (Except.ok out, st') →
      st'.overrides = st.overrides ∧ st'.series = st.series ∧
      st'.users = st.users ∧ st'.settings = st.settings ∧
      get_instance st' iid = some { inst with host_principal := none } ∧
      ∀ j, j ≠ iid → get_instance st' j = get_instance st j) := by
  have hid : inst.instance_id = iid := by
    have := List.find?_some hi
    simpa using this
  constructor
  · intro ha
    by_cases hp : (st.settings.claims_paused && !is_admin st c) = true
    · simp [assign_host, hp] at ha
    · rw [Bool.not_eq_true] at hp
      cases hu : get_user st h with
      | none => simp [assign_host, hp, hu] at ha
      | some huser =>
        cases ht : get_event_timing st none none iid with
        | error e => simp [assign_host, hp, hu, ht] at ha
        | ok p =>
          by_cases hel : (!ao && !can_be_assigned_host huser p.1 p.2) = true
          · simp [assign_host, hp, hu, ht, hel] at ha
          · rw [Bool.not_eq_true] at hel
            simp only [assign_host, hp, hu, ht, hel, hi, Bool.false_eq_true,
              if_false] at ha
            have hst' : st' = insert_instance st { inst with host_principal := some h } := by
              have := congrArg Prod.snd ha
              exact this.symm
            subst hst'
            refine ⟨rfl, rfl, rfl, rfl, ?_, ?_⟩
            · show (upsert_instance { inst with host_principal := some h } st.instances).find?
                (fun i => i.instance_id == iid) = _
              rw [show iid = ({ inst with host_principal := some h } :
                EventInstance).instance_id by simpa using hid.symm]
              exact find?_upsert_instance_self _ _
            · intro j hj
              show (upsert_instance { inst with host_principal := some h }
                st.instances).find? (fun i => i.instance_id == j) = _
              exact find?_upsert_instance_other _ _ _ (by simpa using fun hh => hj (hh.trans hid))
  · intro ha
    by_cases hp : (st.settings.claims_paused && !is_admin st c) = true
    · simp [unassign_host, hp] at ha
    · rw [Bool.not_eq_true] at hp
      cases ht : get_event_timing st none none iid with
      | error e => simp [unassign_host, hp, ht] at ha
      | ok p =>
        cases hgi : get_event_instance st none none iid with
        | error e => simp [unassign_host, hp, ht, hgi] at ha
        | ok prev =>
          simp only [unassign_host, hp, ht, hgi, hi, Bool.false_eq_true,
            if_false] at ha
          have hst' : st' = insert_instance st { inst with host_principal := none } := by
            have := congrArg Prod.snd ha
            exact this.symm
          subst hst'
          refine ⟨rfl, rfl, rfl, rfl, ?_, ?_⟩
          · show (upsert_instance { inst with host_principal := none } st.instances).find?
              (fun i => i.instance_id == iid) = _
            rw [show iid = ({ inst with host_principal := none } :
              EventInstance).instance_id by simpa using hid.symm]
            exact find?_upsert_instance_self _ _
          · intro j hj
            show (upsert_instance { inst with host_principal := none }
              st.instances).find? (fun i => i.instance_id == j) = _
            exact find?_upsert_instance_other _ _ _ (by simpa using fun hh => hj (hh.trans hid))

/-- A state with one available host (principal 5) and one one-off instance
(id 42, window `[1000, 2000)`), used by the one-off frame witness. -/
def oneoffState : State :=
  ⟨[⟨5, "h", "e", Role.User, UserStatus.Active, [], 0, 0, 0, 0⟩], [], [],
    [⟨42, none, 1000, 2000, "a", "x", none, none, EventStatus.Active, none, 7⟩],
    ⟨2, false, 60⟩⟩

/-- The same state after principal 5 was assigned to instance 42. -/
def oneoffStateAfter : State :=
  ⟨[⟨5, "h", "e", Role.User, UserStatus.Active, [], 0, 0, 0, 0⟩], [], [],
    [⟨42, none, 1000, 2000, "a", "x", none, some 5, EventStatus.Active, none, 7⟩],
    ⟨2, false, 60⟩⟩

/-- C10 witness: the frame theorem applied to a concrete successful
assignment of principal 5 to one-off instance 42. -/
theorem oneoff_assignment_frame_witness :
    oneoffStateAfter.overrides = oneoffState.overrides ∧
    oneoffStateAfter.series = oneoffState.series ∧
    oneoffStateAfter.users = oneoffState.users ∧
    oneoffStateAfter.settings = oneoffState.settings ∧
    get_instance oneoffStateAfter 42 =
      some ⟨42, none, 1000, 2000, "a", "x", none, some 5, EventStatus.Active, none, 7⟩ ∧
    ∀ j, j ≠ 42 → get_instance oneoffStateAfter j = get_instance oneoffState j :=
  (oneoff_assignment_frame oneoffState 3 42 5 9 false
    ⟨42, none, 1000, 2000, "a", "x", none, none, EventStatus.Active, none, 7⟩
    ⟨42, none, 1000, 2000, "a", "x", none, some 5, EventStatus.Active, none, 7⟩
    oneoffStateAfter rfl).1 rfl

/-- A state with one weekly Thursday series (id 1, duration 60 minutes,
starting at the epoch) whose epoch occurrence has an exception overriding
only the start (to 7200000000000 ns = 2h), not the end. -/
def startOverrideState : State :=
  ⟨[],
    [⟨1, "t", "n", none, Frequency.Weekly, Weekday.Thu, none, 0, none, 60, none,
      false, 0, 0⟩],
    [⟨1, 0, some 7200000000000, none, none, none, false, false, 0, 9⟩],
    [], ⟨2, false, 60⟩⟩

set_option maxRecDepth 2000 in
/-- C1: with a start-only override, the timing resolution used for the
host-eligibility checks (`get_event_timing`) returns
`overridden start + duration` (here 7200000000000 + 3600000000000), while the
materializer resolves the same occurrence's end to
`original base occurrence instant + duration` (3600000000000).  The two
resolution paths disagree, so the claimed rule does not hold in
`get_event_timing`. -/
theorem get_event_timing_start_override_divergence :
    get_event_timing startOverrideState (some 1) (some 0) 0 =
      Except.ok (7200000000000, 10800000000000) ∧
    (materialize_events startOverrideState 0 86400000000000).map
      (fun e => (e.start_utc, e.end_utc)) = [(7200000000000, 3600000000000)] ∧
    (10800000000000 : Nat) ≠ 0 + 60 * 60 * 1000000000 := by
  refine ⟨rfl, ?_, by norm_num⟩
  have hocc : generate_occurrences
      (⟨1, "t", "n", none, Frequency.Weekly, Weekday.Thu, none, 0, none, 60, none,
        false, 0, 0⟩ : EventSeries) 0 86400000000000 = [0] := by
    simp [generate_occurrences, weeklyOccs, interval_nanos, weekday_from_nanos,
      nanos_to_days, Weekday.toNat]
  simp only [materialize_events, startOverrideState]
  rw [List.foldr_cons, List.foldr_nil]
  unfold materialize_series
  rw [hocc]
  decide

theorem find?_upsert_override_self (x : InstanceOverride) (l : List InstanceOverride) :
    (upsert_override x l).find? (fun o =>
      o.series_id == x.series_id && o.occurrence_start_utc == x.occurrence_start_utc) =
      some x := by
  induction l with
  | nil => simp [upsert_override, List.find?]
  | cons y ys ih =>
    unfold upsert_override
    by_cases hy : (y.series_id == x.series_id &&
        y.occurrence_start_utc == x.occurrence_start_utc) = true
    · rw [if_pos hy]
      simp [List.find?]
    · rw [if_neg hy]
      rw [List.find?]
      rw [show (y.series_id == x.series_id &&
        y.occurrence_start_utc == x.occurrence_start_utc) = false by
          simpa using hy]
      exact ih

theorem get_override_after_insert (st : State) (v : InstanceOverride) (sid : Uuid)
    (occ : Nat) (hv1 : v.series_id = sid) (hv2 : v.occurrence_start_utc = occ) :
    get_override (insert_override st v) ⟨sid, occ⟩ = some v := by
  subst hv1
  subst hv2
  exact find?_upsert_override_self v st.overrides

/-- A state with an available host (principal 5) and one weekly Thursday
series (id 1) starting at the epoch, with no overrides; used for C3. -/
def seriesOnlyState : State :=
  ⟨[⟨5, "h", "e", Role.User, UserStatus.Active, [], 0, 0, 0, 0⟩],
    [⟨1, "t", "n", none, Frequency.Weekly, Weekday.Thu, none, 0, none, 60, none,
      false, 0, 0⟩],
    [], [], ⟨2, false, 60⟩⟩

/-- The same state, except the epoch occurrence of series 1 carries a
cancelled exception; used for C3. -/
def cancelledOverrideState : State :=
  ⟨[⟨5, "h", "e", Role.User, UserStatus.Active, [], 0, 0, 0, 0⟩],
    [⟨1, "t", "n", none, Frequency.Weekly, Weekday.Thu, none, 0, none, 60, none,
      false, 0, 0⟩],
    [⟨1, 0, none, none, none, none, false, true, 0, 9⟩],
    [], ⟨2, false, 60⟩⟩

set_option maxRecDepth 2000 in
/-- C3 counterexample: (1) instant 86400000000000 (a Friday) is not an
occurrence generated by the Thursday rule in a 30-day window, yet
`assign_host` targeting it succeeds instead of failing with NotFound; and
(2) `assign_host` on an occurrence whose exception is cancelled does return
NotFound, but only after writing the host into the stored override, so the
stored state is NOT left unchanged. -/
theorem occurrence_resolution_counterexample :
    86400000000000 ∉ generate_occurrences
      (⟨1, "t", "n", none, Frequency.Weekly, Weekday.Thu, none, 0, none, 60, none,
        false, 0, 0⟩ : EventSeries) 0 2592000000000000 ∧
    (∃ out, (assign_host seriesOnlyState 0 (some 1) (some 86400000000000)
      99 5 9 false).1 = Except.ok out) ∧
    (assign_host cancelledOverrideState 0 (some 1) (some 0) 99 5 9 true).1 =
      Except.error ApiError.NotFound ∧
    (assign_host cancelledOverrideState 0 (some 1) (some 0) 99 5 9 true).2.overrides ≠
      cancelledOverrideState.overrides := by
  refine ⟨?_, ⟨_, rfl⟩, rfl, by decide⟩
  have hocc : generate_occurrences
      (⟨1, "t", "n", none, Frequency.Weekly, Weekday.Thu, none, 0, none, 60, none,
        false, 0, 0⟩ : EventSeries) 0 2592000000000000 =
      [0, 604800000000000, 1209600000000000, 1814400000000000, 2419200000000000] := by
    simp [generate_occurrences, weeklyOccs, interval_nanos, weekday_from_nanos,
      nanos_to_days, Weekday.toNat]
  rw [hocc]
  decide

/-- C3 (amended): for calls passing the pause gate — (i) a recurring target
whose series does not exist, and (ii) a one-off target whose instance does
not exist, fail with NotFound leaving the state unchanged; (iii) a target
whose exception is cancelled makes `unassign_host` fail with NotFound leaving
the state unchanged, while `assign_host` (here with `admin_override`) still
writes the host into the cancelled override and only then returns NotFound;
and (iv) no check that the occurrence instant was generated by the rule
exists: `assign_host` succeeds for an arbitrary instant on an existing series
with no prior exception. -/
theorem assign_unassign_notfound_amended (st : State) (now : Nat) (iid : Uuid)
    (h c : Principal) (ao : Bool)
    (hpause : (st.settings.claims_paused && !is_admin st c) = false) :
    (∀ sid occ_start, get_series st sid = none →
      assign_host st now (some sid) (some occ_start) iid h c ao =
        (Except.error ApiError.NotFound, st) ∧
      unassign_host st now (some sid) (some occ_start) iid c =
        (Except.error ApiError.NotFound, st)) ∧
    (get_instance st iid = none →
      assign_host st now none none iid h c ao = (Except.error ApiError.NotFound, st) ∧
      unassign_host st now none none iid c = (Except.error ApiError.NotFound, st)) ∧
    (∀ sid occ_start s o, get_series st sid = some s →
      get_override st ⟨sid, occ_start⟩ = some o → o.cancelled = true →
      unassign_host st now (some sid) (some occ_start) iid c =
        (Except.error ApiError.NotFound, st) ∧
      (∀ hu, get_user st h = some hu →
        assign_host st now (some sid) (some occ_start) iid h c true =
          (Except.error ApiError.NotFound,
            insert_override st
              { o with
                host_principal := some h, host_cleared := false,
                updated_at := now, updated_by := c }))) ∧
    (∀ sid occ_start s hu, get_series st sid = some s → get_user st h = some hu →
      get_override st ⟨sid, occ_start⟩ = none →
      ((assign_host st now (some sid) (some occ_start) iid h c true).1).isOk = true) := by
  refine ⟨?_, ?_, ?_, ?_⟩
  · intro sid occ_start hs
    have ht : get_event_timing st (some sid) (some occ_start) iid =
        Except.error ApiError.NotFound := by
      simp [get_event_timing, hs]
    constructor
    · cases hu : get_user st h with
      | none => simp [assign_host, hpause, hu]
      | some hu' => simp [assign_host, hpause, hu, ht]
    · simp [unassign_host, hpause, ht]
  · intro hi
    have ht : get_event_timing st none none iid = Except.error ApiError.NotFound := by
      simp [get_event_timing, hi]
    constructor
    · cases hu : get_user st h with
      | none => simp [assign_host, hpause, hu]
      | some hu' => simp [assign_host, hpause, hu, ht]
    · simp [unassign_host, hpause, ht]
  · intro sid occ_start s o hs ho hc
    have hkey : (o.series_id == sid && o.occurrence_start_utc == occ_start) = true := by
      have := List.find?_some ho
      simpa using this
    have ht : get_event_timing st (some sid) (some occ_start) iid =
        Except.ok (o.start_utc.getD occ_start,
          o.end_utc.getD ((o.start_utc.getD occ_start) +
            s.default_duration_minutes * 60 * 1000000000)) := by
      simp [get_event_timing, hs, ho]
    have hgi : get_event_instance st (some sid) (some occ_start) iid =
        Except.error ApiError.NotFound := by
      simp [get_event_instance, hs, ho, hc]
    constructor
    · simp [unassign_host, hpause, ht, hgi]
    · intro hu huser
      simp only [assign_host, hpause, Bool.false_eq_true, if_false, huser, ht,
        Bool.not_true, Bool.false_and, ho, Option.getD_some]
      have hresolved :
          get_event_instance
            (insert_override st
              { o with
                host_principal := some h, host_cleared := false,
                updated_at := now, updated_by := c })
            (some sid) (some occ_start) iid = Except.error ApiError.NotFound := by
        have hs' : get_series (insert_override st
            { o with
              host_principal := some h, host_cleared := false,
              updated_at := now, updated_by := c }) sid = some s := hs
        have hkey' : o.series_id = sid ∧ o.occurrence_start_utc = occ_start := by
          simpa using hkey
        have ho' : get_override (insert_override st
            { o with
              host_principal := some h, host_cleared := false,
              updated_at := now, updated_by := c }) ⟨sid, occ_start⟩ =
            some { o with
              host_principal := some h, host_cleared := false,
              updated_at := now, updated_by := c } :=
          get_override_after_insert st _ sid occ_start hkey'.1 hkey'.2
        simp only [get_event_instance, hs', ho']
        simp [hc]
      rw [hresolved]
  · intro sid occ_start s hu hs huser ho
    have ht : get_event_timing st (some sid) (some occ_start) iid =
        Except.ok (occ_start, occ_start + s.default_duration_minutes * 60 * 1000000000) := by
      simp [get_event_timing, hs, ho]
    simp only [assign_host, hpause, Bool.false_eq_true, if_false, huser, ht,
      Bool.not_true, Bool.false_and, ho, Option.getD_none]
    have hs' : get_series (insert_override st
        { (fresh_override sid occ_start now c) with
          host_principal := some h, host_cleared := false,
          updated_at := now, updated_by := c }) sid = some s := hs
    have ho' : get_override (insert_override st
        { (fresh_override sid occ_start now c) with
          host_principal := some h, host_cleared := false,
          updated_at := now, updated_by := c }) ⟨sid, occ_start⟩ =
        some { (fresh_override sid occ_start now c) with
          host_principal := some h, host_cleared := false,
          updated_at := now, updated_by := c } :=
      get_override_after_insert st _ sid occ_start rfl rfl
    show (get_event_instance _ _ _ _).isOk = true
    simp only [get_event_instance, hs', ho']
    rw [if_neg (by simp [fresh_override])]
    rfl

/-- C3 witness: the amended theorem applied at a concrete state — series 2
does not exist, so assign and unassign on it fail with NotFound and leave the
state unchanged. -/
theorem assign_unassign_notfound_amended_witness :
    assign_host seriesOnlyState 0 (some 2) (some 0) 3 5 9 false =
      (Except.error ApiError.NotFound, seriesOnlyState) ∧
    unassign_host seriesOnlyState 0 (some 2) (some 0) 3 9 =
      (Except.error ApiError.NotFound, seriesOnlyState) :=
  (assign_unassign_notfound_amended seriesOnlyState 0 3 5 9 false rfl).1 2 0 rfl

theorem nanos_to_days_add_days (x d : Nat) :
    nanos_to_days (x + d * 86400 * 1000000000) = nanos_to_days x + d := by
  unfold nanos_to_days
  omega

theorem weekday_from_nanos_add_days (x d : Nat) :
    weekday_from_nanos (x + d * 86400 * 1000000000) =
      ((nanos_to_days x + d + 3) % 7 + 7) % 7 := by
  unfold weekday_from_nanos
  rw [nanos_to_days_add_days]

theorem weekday_add_mul_interval (f : Frequency) (x k : Nat) :
    weekday_from_nanos (x + k * interval_nanos f) = weekday_from_nanos x := by
  have h7 : ∃ m, interval_nanos f = (7 * m) * 86400 * 1000000000 := by
    cases f
    · exact ⟨1, by simp [interval_nanos]⟩
    · exact ⟨2, by simp [interval_nanos]⟩
    · exact ⟨1, by simp [interval_nanos]⟩
  obtain ⟨m, hm⟩ := h7
  have : x + k * interval_nanos f = x + (k * (7 * m)) * 86400 * 1000000000 := by
    rw [hm]; ring
  rw [this, weekday_from_nanos_add_days]
  unfold weekday_from_nanos
  have : k * (7 * m) = (k * m) * 7 := by ring
  rw [this]
  omega

theorem weekday_toNat_lt (w : Weekday) : w.toNat < 7 := by
  cases w <;> simp [Weekday.toNat]

theorem weekday_first_anchor (lo tw : Nat) (h : tw < 7) :
    weekday_from_nanos
      (lo + ((tw + 7 - weekday_from_nanos lo) % 7) * 86400 * 1000000000) = tw := by
  rw [weekday_from_nanos_add_days]
  unfold weekday_from_nanos
  omega

theorem weeklyOccs_mem (f : Frequency) (eend sd : Nat) :
    ∀ n occ, eend - occ = n → sd ≤ occ → ∀ t,
      (t ∈ weeklyOccs f occ eend sd ↔
        ∃ k, t = occ + k * interval_nanos f ∧ t < eend) := by
  have hI := interval_nanos_pos f
  intro n
  induction n using Nat.strong_induction_on with
  | _ n ih =>
    intro occ hn hsd t
    rw [weeklyOccs]
    by_cases hlt : occ < eend
    · rw [if_pos hlt, if_pos hsd, List.singleton_append, List.mem_cons]
      rw [ih (eend - (occ + interval_nanos f)) (by omega) (occ + interval_nanos f) rfl
        (by omega) t]
      constructor
      · rintro (rfl | ⟨k, hk, hklt⟩)
        · exact ⟨0, by simp, hlt⟩
        · refine ⟨k + 1, ?_, hklt⟩
          rw [Nat.succ_mul]
          omega
      · rintro ⟨k, hk, hklt⟩
        cases k with
        | zero => left; omega
        | succ k' =>
          right
          refine ⟨k', ?_, hklt⟩
          rw [Nat.succ_mul] at hk
          omega
    · rw [if_neg hlt]
      simp only [List.not_mem_nil, false_iff, not_exists, not_and]
      intro k hk
      have : occ ≤ t := by
        rw [hk]; exact Nat.le_add_right _ _
      omega

theorem weeklyOccs_head (f : Frequency) (eend sd occ : Nat) (hsd : sd ≤ occ)
    (hlt : occ < eend) :
    (weeklyOccs f occ eend sd).head? = some occ := by
  rw [weeklyOccs, if_pos hlt, if_pos hsd]
  rfl

theorem weeklyOccs_chain (f : Frequency) (eend sd : Nat) :
    ∀ n occ, eend - occ = n → sd ≤ occ →
      List.Chain' (fun a b => b = a + interval_nanos f) (weeklyOccs f occ eend sd) := by
  have hI := interval_nanos_pos f
  intro n
  induction n using Nat.strong_induction_on with
  | _ n ih =>
    intro occ hn hsd
    rw [weeklyOccs]
    by_cases hlt : occ < eend
    · rw [if_pos hlt, if_pos hsd, List.singleton_append, List.chain'_cons']
      constructor
      · intro b hb
        by_cases h2 : occ + interval_nanos f < eend
        · rw [weeklyOccs_head f eend sd _ (by omega) h2] at hb
          simp at hb
          omega
        · rw [weeklyOccs, if_neg h2] at hb
          simp at hb
      · exact ih (eend - (occ + interval_nanos f)) (by omega) (occ + interval_nanos f)
          rfl (by omega)
    · rw [if_neg hlt]
      simp

theorem generate_occurrences_weekly_eq (s : EventSeries) (ws we : Nat)
    (hf : s.frequency = Frequency.Weekly ∨ s.frequency = Frequency.Biweekly) :
    generate_occurrences s ws we =
      (if (match s.end_date with | some e => min we e | none => we) ≤
          max ws s.start_date then []
       else weeklyOccs s.frequency
        (max ws s.start_date +
          ((s.weekday.toNat + 7 - weekday_from_nanos (max ws s.start_date)) % 7) *
            86400 * 1000000000)
        (match s.end_date with | some e => min we e | none => we) s.start_date) := by
  rcases hf with h | h <;> simp only [generate_occurrences, h]

/-- C2 (amended): for a `Weekly` or `Biweekly` rule, every generated
occurrence lies in `[max(window_start, rule.start_date),
min(window_end, rule.end_date or +inf))` and falls on the rule's anchor
weekday; consecutive occurrences are exactly 7 (resp. 14) days apart; but the
set of occurrences is the arithmetic progression anchored at the first
anchor-weekday instant at or after the EFFECTIVE WINDOW START (keeping that
instant's time of day), not at the rule's start date: its phase follows the
query window, not the rule. -/
theorem weekly_generation_amended (s : EventSeries) (ws we : Nat)
    (hf : s.frequency = Frequency.Weekly ∨ s.frequency = Frequency.Biweekly) :
    (∀ t ∈ generate_occurrences s ws we,
      max ws s.start_date ≤ t ∧
      t < (match s.end_date with | some e => min we e | none => we) ∧
      weekday_from_nanos t = s.weekday.toNat) ∧
    List.Chain' (fun a b => b = a + interval_nanos s.frequency)
      (generate_occurrences s ws we) ∧
    (∀ t, t ∈ generate_occurrences s ws we ↔
      (max ws s.start_date <
          (match s.end_date with | some e => min we e | none => we) ∧
       ∃ k, t = max ws s.start_date +
          ((s.weekday.toNat + 7 - weekday_from_nanos (max ws s.start_date)) % 7) *
            86400 * 1000000000 + k * interval_nanos s.frequency ∧
        t < (match s.end_date with | some e => min we e | none => we))) := by
  rw [generate_occurrences_weekly_eq s ws we hf]
  by_cases hord : (match s.end_date with | some e => min we e | none => we) ≤
      max ws s.start_date
  · rw [if_pos hord]
    refine ⟨by simp, by simp, ?_⟩
    intro t
    simp only [List.not_mem_nil, false_iff, not_and]
    intro hlt
    omega
  · rw [if_neg hord]
    have hsd : s.start_date ≤ max ws s.start_date +
        ((s.weekday.toNat + 7 - weekday_from_nanos (max ws s.start_date)) % 7) *
          86400 * 1000000000 :=
      le_trans (le_max_right _ _) (Nat.le_add_right _ _)
    have hmem := weeklyOccs_mem s.frequency
      (match s.end_date with | some e => min we e | none => we) s.start_date _ _
      rfl hsd
    refine ⟨?_, ?_, ?_⟩
    · intro t ht
      obtain ⟨k, hk, hklt⟩ := (hmem t).mp ht
      refine ⟨?_, hklt, ?_⟩
      · have : max ws s.start_date ≤ max ws s.start_date +
            ((s.weekday.toNat + 7 - weekday_from_nanos (max ws s.start_date)) % 7) *
              86400 * 1000000000 + k * interval_nanos s.frequency :=
          le_trans (Nat.le_add_right _ _) (Nat.le_add_right _ _)
        omega
      · rw [hk, weekday_add_mul_interval,
          weekday_first_anchor _ _ (weekday_toNat_lt s.weekday)]
    · exact weeklyOccs_chain s.frequency _ s.start_date _ _ rfl hsd
    · intro t
      rw [hmem t]
      constructor
      · rintro ⟨k, hk, hklt⟩
        exact ⟨by omega, k, hk, hklt⟩
      · rintro ⟨_, k, hk, hklt⟩
        exact ⟨k, hk, hklt⟩

/-- A biweekly Thursday series, start date at the epoch instant (a Thursday),
open-ended, used for C2. -/
def biweeklySeries : EventSeries :=
  ⟨1, "t", "n", none, Frequency.Biweekly, Weekday.Thu, none, 0, none, 60, none,
    false, 0, 0⟩

set_option maxRecDepth 2000 in
/-- C2 counterexample: for the biweekly epoch-Thursday rule queried over
`[7d, 30d)` (nanoseconds), the generated set is `[7d, 21d]` — but the
phase-locked set claimed (`start_date + k*14d` clipped to the window) would
be `{14d, 28d}`: the generated instant `7d` is not of the form
`start_date + k*14d` (it is an odd multiple of 7 days from the start date),
and `14d = start_date + 1*14d` lies inside the effective window yet is not
generated.  The set therefore depends on where the query window begins. -/
theorem biweekly_phase_counterexample :
    generate_occurrences biweeklySeries 604800000000000 2592000000000000 =
      [604800000000000, 1814400000000000] ∧
    (1209600000000000 : Nat) =
      biweeklySeries.start_date + 1 * interval_nanos Frequency.Biweekly ∧
    max 604800000000000 biweeklySeries.start_date ≤ 1209600000000000 ∧
    (1209600000000000 : Nat) < 2592000000000000 ∧
    (604800000000000 : Nat) % interval_nanos Frequency.Biweekly ≠ 0 := by
  refine ⟨?_, by norm_num [biweeklySeries, interval_nanos],
    by norm_num [biweeklySeries], by norm_num, by norm_num [interval_nanos]⟩
  simp [generate_occurrences, weeklyOccs, interval_nanos, weekday_from_nanos,
    nanos_to_days, Weekday.toNat, biweeklySeries]

/-- C2 witness: the amended theorem applied to the concrete biweekly series
over a concrete window — consecutive generated occurrences are exactly 14
days apart. -/
theorem weekly_generation_amended_witness :
    List.Chain' (fun a b => b = a + interval_nanos Frequency.Biweekly)
      (generate_occurrences biweeklySeries 604800000000000 2592000000000000) :=
  (weekly_generation_amended biweeklySeries 604800000000000 2592000000000000
    (Or.inr rfl)).2.1

end OHS
